import Mathlib

/-!
Shallow embedding of openstack-infra/statusbot (src/statusbot/bot.py):
the IRC command authorizer and dispatcher (StatusBot.on_pubmsg,
handle_status_command, broadcast, update_saved_topic), the wiki status
page parser (StatusPage.loadItems / saveItems / addItem), the alert file
publisher (AlertFile) and the microblog splitter (Tweet.update via
textwrap.wrap).  Handlers are modelled as pure functions from a bot state
to a new state plus a trace of observable actions (IRC sends, topic sets,
publisher invocations, log records); a publisher is abstracted to whether
a given operation raises, which is all the dispatcher can observe.
-/

namespace Statusbot

/-- Whitespace characters recognised by Python str.split() and textwrap
(the ASCII whitespace set). -/
def isPyWs (c : Char) : Bool :=
  c = ' ' || c = '\t' || c = '\n' || c = '\x0b' || c = '\x0c' || c = '\r'

/-- Python str.split(sep) for a single separator character, keeping empty
pieces (so the empty string yields one empty piece). -/
def splitCharList (sep : Char) : List Char → List (List Char)
  | [] => [[]]
  | d :: ds =>
    match splitCharList sep ds with
    | [] => [[d]]
    | x :: xs => if d = sep then [] :: x :: xs else (d :: x) :: xs

/-- Split a character list into maximal runs of whitespace and
non-whitespace characters. -/
def splitRuns : List Char → List (List Char)
  | [] => []
  | c :: cs =>
    match splitRuns cs with
    | [] => [[c]]
    | [] :: rs => [c] :: [] :: rs
    | (d :: r) :: rs =>
      if isPyWs c = isPyWs d then (c :: d :: r) :: rs else [c] :: (d :: r) :: rs

/-- Whether a chunk strips to the empty string (chunk.strip() equals the
empty string): all of its characters are whitespace. -/
def isWsChunk (l : List Char) : Bool := l.all isPyWs

/-- Python str.split(sep) on a whole string for a single separator
character. -/
def pySplitChar (sep : Char) (s : String) : List String :=
  (splitCharList sep s.toList).map String.mk

/-- Python str.split() with no argument: the maximal non-whitespace runs
of the string (whitespace runs are dropped, so no piece is empty). -/
def pySplit (s : String) : List String :=
  ((splitRuns s.toList).filter (fun r => ¬ isWsChunk r)).map String.mk

/-- Python str.startswith. -/
def pyStartsWith (s pre : String) : Bool :=
  pre.toList.isPrefixOf s.toList

/-- Python str.lower (ASCII). -/
def pyLower (s : String) : String :=
  String.mk (s.toList.map Char.toLower)

/-- Python truthiness of an optional string: None and the empty string are
falsy. -/
def pyTruthy : Option String → Bool
  | none => false
  | some s => s ≠ ""

/-- Python dict lookup with a default: d.get(k, dflt). -/
def dictGet (d : List (String × String)) (k dflt : String) : String :=
  match d.find? (fun p => p.1 == k) with
  | some p => p.2
  | none => dflt

/-- Python dict assignment d[k] = v: replace in place if the key exists,
otherwise append (insertion order preserved). -/
def dictSet (d : List (String × String)) (k v : String) : List (String × String) :=
  if d.any (fun p => p.1 == k) then
    d.map (fun p => if p.1 == k then (k, v) else p)
  else d ++ [(k, v)]

/-- The four operations of the UpdateInterface publisher contract. -/
inductive PubOp where
  | alertOp
  | noticeOp
  | logOp
  | okOp
  deriving DecidableEq

/-- A registered publisher, abstracted to whether a given operation on a
given text raises an exception (the only aspect the dispatcher observes). -/
structure Publisher where
  failsOn : PubOp → String → Bool

/-- Observable side effects of the bot's handlers: connection.privmsg,
connection.notice, ChanServ topic setting, a publisher invocation, the
success/thanks wiki log calls, and log records. -/
inductive Action where
  | privmsg (channel msg : String)
  | chanNotice (channel msg : String)
  | setTopic (channel topic : String)
  | pubCall (i : Nat) (op : PubOp) (text : String)
  | wikiSuccessLog (channel nick text : String)
  | wikiThanksLog (channel nick text : String)
  | logDebug (msg : String)
  | logInfo (msg : String)
  | logExc (msg : String)
  deriving DecidableEq

/-- The StatusBot fields used by message handling. -/
structure BotState where
  channel_list : List String
  nicks : List String
  topics : List (String × String)
  current_topic : Option String
  identify_msg_cap : Bool
  publishers : List Publisher

/-- The publisher fan-out loop in handle_status_command
(for p in self.publishers: p.op(text)): publishers are invoked in order and
a raised exception aborts the loop, since there is no per-publisher
try/except.  Returns the calls made (including the failing one) and whether
an exception escaped; i is the index of the first publisher. -/
def fanout (pubs : List Publisher) (op : PubOp) (text : String) (i : Nat) :
    List Action × Bool :=
  match pubs with
  | [] => ([], false)
  | p :: rest =>
    if p.failsOn op text then ([Action.pubCall i op text], true)
    else
      let r := fanout rest op text (i + 1)
      (Action.pubCall i op text :: r.1, r.2)

/-- StatusBot.broadcast: when set_topic, record the message as the current
topic; then per channel optionally restore the saved topic (or the bare
channel name), send a prefixed notice when the message is truthy, and
optionally set the topic to the message. -/
def broadcast (s : BotState) (pfx msg : String) (set_topic restore_topic : Bool) :
    BotState × List Action :=
  let s1 := if set_topic then { s with current_topic := some msg } else s
  let acts := (s1.channel_list.map (fun channel =>
    (if restore_topic then
        [Action.setTopic channel (dictGet s1.topics channel channel)]
      else [])
    ++ (if msg ≠ "" then [Action.chanNotice channel (pfx ++ msg)] else [])
    ++ (if set_topic then [Action.setTopic channel msg] else []))).flatten
  (s1, acts)

/-- The body of StatusBot.handle_status_command after parsing: dispatch on
the lowercased verb with the joined argument text (msg is the raw message,
used only by the unknown-command log line).  Returns the new state, the
action trace and whether an exception escaped (from a publisher). -/
def dispatchCommand (s : BotState) (channel nick command text msg : String) :
    BotState × List Action × Bool :=
  if command = "alert" then
    let b := broadcast s "NOTICE: " text true false
    let f := fanout s.publishers PubOp.alertOp text 0
    let acts := Action.logInfo ("Processing alert from " ++ nick ++ ": " ++ text)
      :: Action.privmsg channel (nick ++ ": sending alert") :: (b.2 ++ f.1)
    if f.2 then (b.1, acts, true)
    else (b.1, acts ++ [Action.privmsg channel (nick ++ ": finished sending alert")], false)
  else if command = "notice" then
    let b := broadcast s "NOTICE: " text false false
    let f := fanout s.publishers PubOp.noticeOp text 0
    let acts := Action.logInfo ("Processing notice from " ++ nick ++ ": " ++ text)
      :: Action.privmsg channel (nick ++ ": sending notice") :: (b.2 ++ f.1)
    if f.2 then (b.1, acts, true)
    else (b.1, acts ++ [Action.privmsg channel (nick ++ ": finished sending notice")], false)
  else if command = "log" then
    let f := fanout s.publishers PubOp.logOp text 0
    let acts := Action.logInfo ("Processing log from " ++ nick ++ ": " ++ text) :: f.1
    if f.2 then (s, acts, true)
    else (s, acts ++ [Action.privmsg channel (nick ++ ": finished logging")], false)
  else if command = "ok" then
    let b := broadcast s "NOTICE: " text false true
    let f := fanout s.publishers PubOp.okOp text 0
    let acts := Action.logInfo ("Processing ok from " ++ nick ++ ": " ++ text)
      :: Action.privmsg channel (nick ++ ": sending ok") :: (b.2 ++ f.1)
    if f.2 then (b.1, acts, true)
    else (b.1, acts ++ [Action.privmsg channel (nick ++ ": finished sending ok")], false)
  else
    (s, [Action.privmsg channel (nick ++ ": unknown command"),
         Action.logInfo ("Unknown command " ++ command ++ " from " ++ nick ++ ": " ++ msg)],
     false)

/-- StatusBot.handle_status_command: split the message; parts[1] on a
message with fewer than two tokens raises IndexError before any side
effect; otherwise dispatch on parts[1].lower() with parts[2:] joined by
single spaces. -/
def handleStatusCommand (s : BotState) (channel nick msg : String) :
    BotState × List Action × Bool :=
  match pySplit msg with
  | [] => (s, [], true)
  | [_] => (s, [], true)
  | _ :: cmd :: rest =>
    dispatchCommand s channel nick (pyLower cmd) (String.intercalate " " rest) msg

/-- StatusBot.handle_success_command: log, append to the Success wiki page
and acknowledge. -/
def handleSuccessCommand (s : BotState) (channel nick msg : String) :
    BotState × List Action :=
  let text := String.intercalate " " (pySplit msg).tail
  (s, [Action.logInfo ("Processing success from " ++ nick ++ ": " ++ text),
       Action.wikiSuccessLog channel nick text,
       Action.privmsg channel (nick ++ ": Added success to Success page")])

/-- StatusBot.handle_thanks_command: log, append to the Thanks wiki page
and acknowledge. -/
def handleThanksCommand (s : BotState) (channel nick msg : String) :
    BotState × List Action :=
  let text := String.intercalate " " (pySplit msg).tail
  (s, [Action.logInfo ("Processing thanks from " ++ nick ++ ": " ++ text),
       Action.wikiThanksLog channel nick text,
       Action.privmsg channel (nick ++ ": Added thanks to Thanks page")])

/-- StatusBot.on_pubmsg.  The inbound event is decomposed as: source (the
IRC prefix, nick!user@host), target channel, the identify-msg marker
character auth (the first character of e.arguments[0]) and the message
body msg (the rest of e.arguments[0]). -/
def onPubmsg (s : BotState) (source target : String) (auth : Char) (msg : String) :
    BotState × List Action :=
  if ¬ s.identify_msg_cap then
    (s, [Action.logDebug "Ignoring message because identify-msg cap not enabled"])
  else
    let nick := (pySplitChar '!' source).headD ""
    if pyStartsWith msg "#success" then handleSuccessCommand s target nick msg
    else if pyStartsWith msg "#thanks" then handleThanksCommand s target nick msg
    else if ¬ pyStartsWith msg "#status" then (s, [])
    else if auth ≠ '+' then
      (s, [Action.logDebug ("Ignoring message from unauthenticated user " ++ nick)])
    else if ¬ s.nicks.contains nick then
      (s, [Action.logDebug ("Ignoring message from untrusted user " ++ nick)])
    else
      let r := handleStatusCommand s target nick msg
      (r.1, r.2.1 ++ if r.2.2 then [Action.logExc ("Exception handling command " ++ msg)] else [])

/-- StatusBot.update_saved_topic: a topic equal to the active alert
(current_topic) is ignored; any other topic is recorded in the cache. -/
def updateSavedTopic (s : BotState) (channel topic : String) : BotState × List Action :=
  if some topic = s.current_topic then (s, [])
  else ({ s with topics := dictSet s.topics channel topic },
        [Action.logInfo ("Current topic on " ++ channel ++ " is " ++ topic)])

/-- StatusBot.on_topic: record the announced topic via update_saved_topic. -/
def onTopic (s : BotState) (target topic : String) : BotState × List Action :=
  updateSavedTopic s target topic

/-- Whether an action is a publisher invocation. -/
def isPubCall : Action → Bool
  | Action.pubCall _ _ _ => true
  | _ => false

/-- Whether an action is a topic set. -/
def isTopicSet : Action → Bool
  | Action.setTopic _ _ => true
  | _ => false

/-- Whether an action is a channel privmsg (a reply). -/
def isPrivmsg : Action → Bool
  | Action.privmsg _ _ => true
  | _ => false

/-- The last topic value set on a given channel in an action trace. -/
def lastSetTopic (channel : String) (acts : List Action) : Option String :=
  (acts.filterMap (fun a => match a with
    | Action.setTopic c t => if c = channel then some t else none
    | _ => none)).getLast?

/-- StatusPage in-memory parse state: the current alert and the item lines. -/
structure SPState where
  current_alert : Option String
  items : List String
  deriving DecidableEq

/-- Split a page body into lines as Python text.split(chr 10) does. -/
def pyLines (s : String) : List String :=
  (splitCharList '\n' s.toList).map String.mk

/-- The shortest prefix of the line standing before the first occurrence of
a double closing brace, or none when there is no such occurrence: this is
the non-greedy group of the alert-line pattern. -/
def upToBraces : List Char → Option (List Char)
  | [] => none
  | '\x7d' :: '\x7d' :: _ => some []
  | c :: cs => (upToBraces cs).map (fun r => c :: r)

/-- Anchored match (re.match) of StatusPage.alert_re: the line must begin
with the literal alert marker (two opening braces, CI Alert, a bar), and
the group is the non-greedy text up to the first double closing brace. -/
def alertMatch (line : String) : Option String :=
  if ("\x7b\x7bCI Alert|".toList).isPrefixOf line.toList then
    (upToBraces (line.toList.drop 11)).map String.mk
  else none

/-- Anchored match (re.match) of StatusPage.item_re: a line starting with a
star and a space; the group is the remainder of the line. -/
def itemMatch (line : String) : Option String :=
  match line.toList with
  | '*' :: ' ' :: rest => some (String.mk rest)
  | _ => none

/-- StatusPage.loadItems: reset the state, then scan each line of the page
body, recording the alert group of an alert line and appending the group
of each item line. -/
def loadItems (text : String) : SPState :=
  (pyLines text).foldl
    (fun st line =>
      let st1 := match alertMatch line with
        | some g => { st with current_alert := some g }
        | none => st
      match itemMatch line with
      | some g => { st1 with items := st1.items ++ [g] }
      | none => st1)
    { current_alert := none, items := [] }

/-- StatusPage.saveItems: the alert marker line (when the alert is truthy)
followed by a blank line, then one bullet line per item. -/
def saveItems (st : SPState) : String :=
  (if pyTruthy st.current_alert then
      "\x7b\x7bCI Alert|" ++ st.current_alert.getD "" ++ "\x7d\x7d\n\n"
    else "")
  ++ String.join (st.items.map (fun i => "* " ++ i ++ "\n"))

/-- StatusPage.addItem: prepend an item prefixed by the formatted timestamp
(the timestamp method's output is passed in as a string). -/
def addItem (st : SPState) (item ts : String) : SPState :=
  { st with items := (ts ++ " " ++ item) :: st.items }

/-- Observable filesystem effect of AlertFile.write: the temp-file write,
chmod and rename sequence is one atomic replacement of the file contents. -/
inductive FsAction where
  | atomicWrite (path contents : String)
  deriving DecidableEq

/-- Python json.dumps of dict(alert=msg). -/
def jsonDumpsAlert : Option String → String
  | none => "\x7b\"alert\": null\x7d"
  | some t => "\x7b\"alert\": \"" ++ t ++ "\"\x7d"

/-- AlertFile.write: a no-op when no path is configured, otherwise an
atomic replacement of the alert file with the JSON object. -/
def alertFileWrite (path : Option String) (msg : Option String) : List FsAction :=
  match path with
  | none => []
  | some p => [FsAction.atomicWrite p (jsonDumpsAlert msg)]

/-- AlertFile constructor: computes the path alert.json under the
configured directory (when the alertfile section exists) and immediately
calls ok, that is, writes a null alert.  Returns the stored path and the
filesystem actions performed. -/
def alertFileInit (dir : Option String) : Option String × List FsAction :=
  let path := dir.map (fun d => d ++ "/alert.json")
  (path, alertFileWrite path none)

/-- Sum of the lengths of a list of chunks. -/
def sumLen (l : List (List Char)) : Nat := (l.map List.length).sum

/-- The inner greedy loop of textwrap._wrap_chunks: take chunks while they
fit within the width.  Returns the taken chunks and the remainder. -/
def takeChunks (width : Nat) : Nat → List (List Char) → List (List Char) × List (List Char)
  | _, [] => ([], [])
  | curLen, c :: cs =>
    if curLen + c.length ≤ width then
      let r := takeChunks width (curLen + c.length) cs
      (c :: r.1, r.2)
    else ([], c :: cs)

/-- Greedy filling of one line plus the long-word break of
textwrap._handle_long_word (break_long_words on): after taking the chunks
that fit, a next chunk longer than the whole width is split at the
remaining space.  Returns the chunks of the line and the remaining
chunks. -/
def fillLine (width : Nat) (chunks1 : List (List Char)) :
    List (List Char) × List (List Char) :=
  let t := takeChunks width 0 chunks1
  match t.2 with
  | [] => (t.1, ([] : List (List Char)))
  | w :: ws =>
    if width < w.length then
      let spaceLeft := if width < 1 then 1 else width - sumLen t.1
      (t.1 ++ [w.take spaceLeft], w.drop spaceLeft :: ws)
    else (t.1, w :: ws)

/-- Drop a trailing whitespace chunk from a built line, as the
drop_whitespace option does. -/
def dropTrailingWs (p : List (List Char)) : List (List Char) :=
  match p.getLast? with
  | some last => if isWsChunk last then p.dropLast else p
  | none => p

/-- One iteration of textwrap._wrap_chunks with the default options used
by Tweet.update (drop_whitespace and break_long_words on, no indents):
drop a leading whitespace chunk when a line was already emitted, greedily
fill the line, break a word longer than the width at the remaining space,
and drop a trailing whitespace chunk.  Returns the chunks of the built
line and the remaining chunks. -/
def buildLine (width : Nat) (started : Bool) (chunks : List (List Char)) :
    List (List Char) × List (List Char) :=
  let chunks1 := match chunks with
    | c :: cs => if isWsChunk c ∧ started then cs else c :: cs
    | [] => []
  let p := fillLine width chunks1
  (dropTrailingWs p.1, p.2)

/-- The outer loop of textwrap._wrap_chunks: build lines until the chunks
are exhausted.  Fuel bounds the iteration count; the total character count
plus one always suffices because every iteration consumes at least one
character. -/
def wrapLoop (width : Nat) : Nat → List (List Char) → List (List Char) → List (List Char)
  | 0, lines, _ => lines
  | _ + 1, lines, [] => lines
  | fuel + 1, lines, c :: cs =>
    let r := buildLine width (¬ lines.isEmpty) (c :: cs)
    wrapLoop width fuel (if r.1 ≠ [] then lines ++ [r.1.flatten] else lines) r.2

/-- Model of Python textwrap.wrap(msg, width) with the default options, as
called by Tweet.update: replace whitespace characters by spaces, split
into word and whitespace chunks, and fill lines greedily (faithful for
input without tabs or hyphens: a tab is replaced by one space rather than
expanded, and hyphen-aware word splitting is not modelled). -/
def textwrapWrap (width : Nat) (msg : String) : List String :=
  let munged := msg.toList.map (fun c => if isPyWs c then ' ' else c)
  let chunks := splitRuns munged
  (wrapLoop width (sumLen chunks + 1) [] chunks).map (fun l => String.mk l)

/-- Tweet.update: wrap the message at 120 characters; a single chunk is
posted as is, and several chunks are each posted as the index, a slash and
the chunk, with indices from 0. -/
def tweetUpdate (msg : String) : List String :=
  let tweets := textwrapWrap 120 msg
  match tweets with
  | [t] => [t]
  | _ => tweets.enum.map (fun p => toString p.1 ++ "/" ++ p.2)

/-! Helper lemmas. -/

theorem splitCharList_of_not_mem (sep : Char) (l : List Char) (h : ∀ c ∈ l, c ≠ sep) :
    splitCharList sep l = [l] := by
  induction l with
  | nil => rfl
  | cons d ds ih =>
    have hd : d ≠ sep := h d (by simp)
    have : splitCharList sep ds = [ds] := ih (fun c hc => h c (by simp [hc]))
    simp [splitCharList, this, hd]

theorem splitCharList_append_sep (sep : Char) (l rest : List Char)
    (h : ∀ c ∈ l, c ≠ sep) :
    splitCharList sep (l ++ sep :: rest) = l :: splitCharList sep rest := by
  induction l with
  | nil =>
    cases hr : splitCharList sep rest with
    | nil =>
      exfalso
      induction rest with
      | nil => simp [splitCharList] at hr
      | cons d ds ihd =>
        simp only [splitCharList] at hr
        cases hds : splitCharList sep ds with
        | nil => exact ihd hds
        | cons x xs =>
          rw [hds] at hr
          by_cases hdc : d = sep <;> simp [hdc] at hr
    | cons x xs => simp [splitCharList, hr]
  | cons d ds ih =>
    have hd : d ≠ sep := h d (by simp)
    have ih2 := ih (fun c hc => h c (by simp [hc]))
    simp [splitCharList, ih2, hd]

/-! C10. -/

/-- C10: constructing the AlertFile publisher immediately performs its ok
action, atomically writing the null-alert JSON object to alert.json under
the configured directory; with no alertfile section configured the write
is a no-op. -/
theorem c10_alertfile_init_clears_alert :
    (∀ d : String,
        alertFileInit (some d)
          = (some (d ++ "/alert.json"),
             [FsAction.atomicWrite (d ++ "/alert.json") "\x7b\"alert\": null\x7d"]))
    ∧ alertFileInit none = (none, []) :=
  ⟨fun _ => rfl, rfl⟩

/-! C4. -/

/-- A concrete bot state with an active alert, one joined channel and a
saved pre-alert topic. -/
def c4State : BotState :=
  { channel_list := ["#ops"], nicks := ["alice"], topics := [("#ops", "old topic")],
    current_topic := some "fire", identify_msg_cap := true, publishers := [] }

/-- C4 counterexample: handling ok from the AlertActive state (an alert
text is set) leaves current_topic equal to the alert text; it is not reset
to none, contrary to the claim that AlertState is cleared. -/
theorem c4_counterexample :
    c4State.current_topic = some "fire"
    ∧ (dispatchCommand c4State "#ops" "alice" "ok" "all clear" "#status ok all clear").1.current_topic
        = some "fire" := by
  constructor
  · rfl
  · rfl

/-- C4 amended: handling an ok command leaves the bot state, and in
particular the current-alert value current_topic, entirely unchanged (the
code never resets current_topic to null; only the channel topics are
restored). -/
theorem c4_ok_leaves_current_topic (s : BotState) (channel nick text msg : String) :
    (dispatchCommand s channel nick "ok" text msg).1 = s := by
  have h1 : ("ok" : String) ≠ "alert" := by decide
  have h2 : ("ok" : String) ≠ "notice" := by decide
  have h3 : ("ok" : String) ≠ "log" := by decide
  simp only [dispatchCommand]
  rw [if_neg h1, if_neg h2, if_neg h3]
  simp only [if_true, eq_self_iff_true]
  split <;> rfl

/-! C8. -/

theorem marker_toList : "\x7b\x7bCI Alert|".toList
    = ['\x7b', '\x7b', 'C', 'I', ' ', 'A', 'l', 'e', 'r', 't', '|'] := rfl

theorem alertMatch_star (rest : List Char) : alertMatch (String.mk ('*' :: rest)) = none := by
  have h : ("\x7b\x7bCI Alert|".toList).isPrefixOf ('*' :: rest) = false := by
    rw [marker_toList]
    simp [List.isPrefixOf]
  simp [alertMatch, String.toList, h]

/-- C8 counterexample: round-tripping an empty page through addItem of
hello and saveItems and then loadItems yields the timestamped item, not
the bare string hello, because addItem prefixes the formatted timestamp. -/
theorem c8_counterexample :
    (loadItems (saveItems (addItem { current_alert := none, items := [] } "hello"
        "2013-01-01 00:00:00 UTC"))).items = ["2013-01-01 00:00:00 UTC hello"]
    ∧ (loadItems (saveItems (addItem { current_alert := none, items := [] } "hello"
        "2013-01-01 00:00:00 UTC"))).items ≠ ["hello"]
    ∧ (loadItems (saveItems (addItem { current_alert := none, items := [] } "hello"
        "2013-01-01 00:00:00 UTC"))).current_alert = none := by
  refine ⟨by decide, by decide, by decide⟩

/-- C8 amended: starting from an empty page, addItem of hello followed by
saveItems produces a body that loadItems reparses to exactly one item,
the timestamp followed by a space and hello, with no alert set (for any
newline-free formatted timestamp). -/
theorem c8_round_trip_timestamped (ts : String) (hts : '\n' ∉ ts.toList) :
    loadItems (saveItems (addItem { current_alert := none, items := [] } "hello" ts))
      = { current_alert := none, items := [ts ++ " hello"] } := by
  have hdata : (saveItems (addItem { current_alert := none, items := [] } "hello" ts)).toList
      = ('*' :: ' ' :: (ts.toList ++ " hello".toList)) ++ '\n' :: [] := by
    simp [saveItems, addItem, pyTruthy, String.join, String.toList, String.data_append]
  have hnl : ∀ c ∈ ('*' :: ' ' :: (ts.toList ++ " hello".toList)), c ≠ '\n' := by
    intro c hc
    simp only [List.mem_cons, List.mem_append] at hc
    rcases hc with h | h | h | h
    · simp [h]
    · simp [h]
    · intro he
      subst he
      exact hts h
    · intro he
      subst he
      exact absurd h (by decide)
  have hlines : pyLines (saveItems (addItem { current_alert := none, items := [] } "hello" ts))
      = [String.mk ('*' :: ' ' :: (ts.toList ++ " hello".toList)), String.mk []] := by
    simp only [pyLines, hdata]
    rw [splitCharList_append_sep '\n' _ _ hnl]
    rfl
  simp only [loadItems, hlines, List.foldl]
  rw [show alertMatch (String.mk ('*' :: ' ' :: (ts.toList ++ " hello".toList)))
      = none from alertMatch_star _]
  have hitem : itemMatch (String.mk ('*' :: ' ' :: (ts.toList ++ " hello".toList)))
      = some (String.mk (ts.toList ++ " hello".toList)) := rfl
  rw [hitem]
  have ha2 : alertMatch (String.mk []) = none := by decide
  have hi2 : itemMatch (String.mk []) = none := rfl
  rw [ha2, hi2]
  simp [String.ext_iff, String.data_append, String.toList]

/-- C8 witness: the amended round trip evaluated at a concrete timestamp. -/
theorem c8_witness :
    '\n' ∉ ("2014-05-01 12:00:00 UTC" : String).toList
    ∧ loadItems (saveItems (addItem { current_alert := none, items := [] } "hello"
        "2014-05-01 12:00:00 UTC"))
      = { current_alert := none, items := ["2014-05-01 12:00:00 UTC hello"] } :=
  ⟨by decide, c8_round_trip_timestamped "2014-05-01 12:00:00 UTC" (by decide)⟩

/-! C1, C6, C7: the on_pubmsg gate. -/

/-- Any on_pubmsg invocation whose auth marker is not the plus sign, or
whose nick is not in the trusted list, leaves the state unchanged and
performs no publisher call and no topic set: every branch other than the
privileged dispatch returns the state as is. -/
theorem onPubmsg_reject (s : BotState) (source target : String) (auth : Char) (msg : String)
    (h : auth ≠ '+' ∨ s.nicks.contains ((pySplitChar '!' source).headD "") = false) :
    (onPubmsg s source target auth msg).1 = s
    ∧ ∀ a ∈ (onPubmsg s source target auth msg).2,
        isPubCall a = false ∧ isTopicSet a = false := by
  simp only [onPubmsg, handleSuccessCommand, handleThanksCommand]
  split_ifs with h1 h2 h3 h4 h5 h6 h7
  all_goals first
    | (refine ⟨rfl, ?_⟩
       intro a ha
       simp only [List.mem_cons, List.not_mem_nil, or_false] at ha
       first
         | exact ha.elim
         | (rcases ha with rfl | rfl | rfl <;> exact ⟨rfl, rfl⟩))
    | simp_all

/-- C1: a channel message whose sending nick is not in the trusted nick
list, or whose sender is not marked server-authenticated, invokes no
publisher operation and leaves current_topic and the topic cache
unchanged. -/
theorem c1_untrusted_or_unauthenticated_no_effect
    (s : BotState) (source target : String) (auth : Char) (msg : String)
    (h : s.nicks.contains ((pySplitChar '!' source).headD "") = false ∨ auth ≠ '+') :
    (onPubmsg s source target auth msg).1.topics = s.topics
    ∧ (onPubmsg s source target auth msg).1.current_topic = s.current_topic
    ∧ ∀ a ∈ (onPubmsg s source target auth msg).2, isPubCall a = false := by
  have hr := onPubmsg_reject s source target auth msg (h.elim Or.inr Or.inl)
  exact ⟨by rw [hr.1], by rw [hr.1], fun a ha => (hr.2 a ha).1⟩

/-- A concrete bot state: one joined channel, alice as the only trusted
nick, a saved topic, no active alert, identify-msg negotiated, no
publishers. -/
def baseState : BotState :=
  { channel_list := ["#ops"], nicks := ["alice"], topics := [("#ops", "old topic")],
    current_topic := none, identify_msg_cap := true, publishers := [] }

/-- C1 witness: the theorem applied to a privileged command from the
untrusted nick bob. -/
theorem c1_witness :
    (baseState.nicks.contains ((pySplitChar '!' "bob!b@h").headD "") = false
      ∨ ('+' : Char) ≠ '+')
    ∧ ((onPubmsg baseState "bob!b@h" "#ops" '+' "#status alert fire").1.topics = baseState.topics
       ∧ (onPubmsg baseState "bob!b@h" "#ops" '+' "#status alert fire").1.current_topic
           = baseState.current_topic
       ∧ ∀ a ∈ (onPubmsg baseState "bob!b@h" "#ops" '+' "#status alert fire").2,
           isPubCall a = false) :=
  ⟨Or.inl (by decide),
   c1_untrusted_or_unauthenticated_no_effect baseState "bob!b@h" "#ops" '+'
     "#status alert fire" (Or.inl (by decide))⟩

/-- C7 counterexample: a success command from an unauthenticated sender
(auth marker minus) still runs the success handler: the wiki success log
call and the channel acknowledgement both appear in the trace, so the
unprivileged path is not rejected before dispatch. -/
theorem c7_counterexample :
    (onPubmsg baseState "bob!b@h" "#ops" '-' "#success yay").2.contains
        (Action.wikiSuccessLog "#ops" "bob" "yay") = true
    ∧ (onPubmsg baseState "bob!b@h" "#ops" '-' "#success yay").2.contains
        (Action.privmsg "#ops" "bob: Added success to Success page") = true := by
  refine ⟨by decide, by decide⟩

/-- C7 amended: a message not marked server-authenticated never reaches
the privileged status dispatch (the state is unchanged and no publisher
call or topic set occurs), but the unprivileged success and thanks
handlers do run for it: the authentication check guards only the status
path. -/
theorem c7_unauthenticated_no_privileged_dispatch
    (s : BotState) (source target : String) (auth : Char) (msg : String)
    (h : auth ≠ '+') :
    (onPubmsg s source target auth msg).1 = s
    ∧ ∀ a ∈ (onPubmsg s source target auth msg).2,
        isPubCall a = false ∧ isTopicSet a = false :=
  onPubmsg_reject s source target auth msg (Or.inl h)

/-- C7 witness: the amended theorem applied to an unauthenticated status
command. -/
theorem c7_witness :
    (('-' : Char) ≠ '+')
    ∧ ((onPubmsg baseState "alice!a@h" "#ops" '-' "#status alert fire").1 = baseState
       ∧ ∀ a ∈ (onPubmsg baseState "alice!a@h" "#ops" '-' "#status alert fire").2,
           isPubCall a = false ∧ isTopicSet a = false) :=
  ⟨by decide,
   c7_unauthenticated_no_privileged_dispatch baseState "alice!a@h" "#ops" '-'
     "#status alert fire" (by decide)⟩

/-- A status command with fewer than two tokens makes parts[1] raise
IndexError before any side effect: handle_status_command yields no
actions and an escaped exception. -/
theorem handleStatusCommand_short (s : BotState) (channel nick msg : String)
    (hparse : (pySplit msg).length ≤ 1) :
    handleStatusCommand s channel nick msg = (s, [], true) := by
  unfold handleStatusCommand
  split
  · rfl
  · rfl
  · next x cmd rest heq =>
    rw [heq] at hparse
    simp at hparse

/-- C6 counterexample: the bare trigger, a status command with no verb,
from a trusted authenticated sender is not answered with the unknown
command reply; the IndexError is caught at the dispatch boundary and
logged, and no reply at all is sent. -/
theorem c6_counterexample :
    (onPubmsg baseState "alice!a@h" "#ops" '+' "#status").2
      = [Action.logExc "Exception handling command #status"]
    ∧ (onPubmsg baseState "alice!a@h" "#ops" '+' "#status").2.contains
        (Action.privmsg "#ops" "alice: unknown command") = false := by
  refine ⟨by decide, by decide⟩

/-- C6 amended: a privileged command message with fewer tokens than
required raises an IndexError inside the handler that is caught at the
dispatch boundary: the state is unchanged, no reply (not even the unknown
command reply) is sent to the channel, and the only effect is the logged
exception; the bot process does not crash. -/
theorem c6_short_command_logged_exception
    (s : BotState) (source target msg : String)
    (hcap : s.identify_msg_cap = true)
    (htrust : s.nicks.contains ((pySplitChar '!' source).headD "") = true)
    (hsucc : pyStartsWith msg "#success" = false)
    (hth : pyStartsWith msg "#thanks" = false)
    (hstat : pyStartsWith msg "#status" = true)
    (hparse : (pySplit msg).length ≤ 1) :
    onPubmsg s source target '+' msg
      = (s, [Action.logExc ("Exception handling command " ++ msg)]) := by
  simp only [onPubmsg, hcap, hsucc, hth, hstat, htrust,
    handleStatusCommand_short s target _ msg hparse]
  simp

/-! C3, C5: topic save and restore. -/

/-- The topic set on the given channel by an action, if any. -/
def topicOf (channel : String) : Action → Option String
  | Action.setTopic c t => if c = channel then some t else none
  | _ => none

theorem lastSetTopic_eq (ch : String) (acts : List Action) :
    lastSetTopic ch acts = (acts.filterMap (topicOf ch)).getLast? := rfl

/-- The alert branch of the dispatcher only records the alert text as the
current topic; the topic cache and every other field are untouched. -/
theorem dispatch_alert_state (s : BotState) (c n X m : String) :
    (dispatchCommand s c n "alert" X m).1 = { s with current_topic := some X } := by
  simp only [dispatchCommand, if_true]
  split <;> rfl

/-- Folding topic notifications that all carry the active alert text over
update_saved_topic leaves the state untouched. -/
theorem applyEchoesT (s : BotState) (chans : List String) (X : String)
    (h : s.current_topic = some X) :
    chans.foldl (fun st ch => (updateSavedTopic st ch X).1) s = s := by
  induction chans with
  | nil => rfl
  | cons c cs ih =>
    have h1 : (updateSavedTopic s c X).1 = s := by simp [updateSavedTopic, h]
    rw [List.foldl_cons, h1]
    exact ih

/-- Publisher calls never set topics. -/
theorem fanout_filter_topic (pubs : List Publisher) (op : PubOp) (text : String)
    (i : Nat) (ch : String) :
    ((fanout pubs op text i).1).filterMap (topicOf ch) = [] := by
  induction pubs generalizing i with
  | nil => rfl
  | cons p rest ih =>
    simp only [fanout]
    split
    · rfl
    · simp [topicOf, ih]

theorem flatten_ite_nil (l : List String) (ch : String) (g : String → String) (h : ch ∉ l) :
    (l.map (fun c => if c = ch then [g c] else [])).flatten = [] := by
  induction l with
  | nil => rfl
  | cons a l ih =>
    simp only [List.mem_cons, not_or] at h
    have ha : ¬ (a = ch) := fun he => h.1 he.symm
    simp only [List.map_cons, List.flatten_cons, if_neg ha, List.nil_append]
    exact ih h.2

theorem flatten_ite_getLast (l : List String) (ch : String) (g : String → String) (h : ch ∈ l) :
    ((l.map (fun c => if c = ch then [g c] else [])).flatten).getLast? = some (g ch) := by
  induction l with
  | nil => cases h
  | cons a l ih =>
    by_cases hal : ch ∈ l
    · simp only [List.map_cons, List.flatten_cons]
      rw [List.getLast?_append, ih hal]
      rfl
    · have ha : a = ch := by
        rcases List.mem_cons.mp h with h' | h'
        · exact h'.symm
        · exact absurd h' hal
      subst ha
      simp only [List.map_cons, List.flatten_cons, if_pos rfl]
      rw [flatten_ite_nil l a g hal]
      rfl

/-- The topic sets performed by the ok branch are exactly one restore per
joined channel, to the saved topic or the bare channel name. -/
theorem dispatch_ok_filter (s : BotState) (c n text m ch : String) :
    ((dispatchCommand s c n "ok" text m).2.1).filterMap (topicOf ch)
      = (s.channel_list.map (fun cc => if cc = ch then [dictGet s.topics cc cc] else [])).flatten := by
  have h1 : ("ok" : String) ≠ "alert" := by decide
  have h2 : ("ok" : String) ≠ "notice" := by decide
  have h3 : ("ok" : String) ≠ "log" := by decide
  simp only [dispatchCommand]
  rw [if_neg h1, if_neg h2, if_neg h3]
  simp only [if_true]
  have hb : ((broadcast s "NOTICE: " text false true).2).filterMap (topicOf ch)
      = (s.channel_list.map (fun cc => if cc = ch then [dictGet s.topics cc cc] else [])).flatten := by
    simp only [broadcast, List.filterMap_flatten, List.map_map, if_true,
      Bool.false_eq_true, if_false, List.append_nil]
    congr 1
    apply List.map_congr_left
    intro cc _
    simp only [Function.comp]
    by_cases hcc : cc = ch
    · subst hcc
      by_cases ht : text = ""
      · simp [ht, topicOf]
      · simp [ht, topicOf]
    · by_cases ht : text = ""
      · simp [ht, topicOf, hcc]
      · simp [ht, topicOf, hcc]
  split
  · simp only [List.filterMap_cons, topicOf, List.filterMap_append,
      fanout_filter_topic, hb, List.append_nil]
  · simp only [List.filterMap_cons, topicOf, List.filterMap_append,
      fanout_filter_topic, hb, List.append_nil]
    simp [topicOf]

/-- C3: after alert X followed by ok, the last topic set on each joined
channel is the topic saved for it before the alert, or the bare channel
name when none was saved. -/
theorem c3_alert_ok_restores_topics
    (s : BotState) (chA nick ch X oktext msgA msgO : String) (hch : ch ∈ s.channel_list) :
    lastSetTopic ch
        ((dispatchCommand s chA nick "alert" X msgA).2.1
          ++ (dispatchCommand (dispatchCommand s chA nick "alert" X msgA).1
                chA nick "ok" oktext msgO).2.1)
      = some (dictGet s.topics ch ch) := by
  rw [lastSetTopic_eq, List.filterMap_append, List.getLast?_append]
  rw [dispatch_alert_state]
  rw [dispatch_ok_filter]
  rw [flatten_ite_getLast _ ch _ hch]
  rfl

/-- C3 witness: the restore theorem applied to a concrete alert and ok
sequence on one channel with a saved topic. -/
theorem c3_witness :
    ("#ops" : String) ∈ baseState.channel_list
    ∧ lastSetTopic "#ops"
        ((dispatchCommand baseState "#ops" "alice" "alert" "fire" "m1").2.1
          ++ (dispatchCommand (dispatchCommand baseState "#ops" "alice" "alert" "fire" "m1").1
                "#ops" "alice" "ok" "all clear" "m2").2.1)
      = some (dictGet baseState.topics "#ops" "#ops") :=
  ⟨by decide,
   c3_alert_ok_restores_topics baseState "#ops" "alice" "#ops" "fire" "all clear" "m1" "m2"
     (by decide)⟩

/-- C5: a topic notification whose text equals the active alert text is
never written into the topic cache, and issuing alert X twice without an
intervening ok, with any number of interleaved topic echoes of the alert
text, leaves the saved pre-alert topic cache unchanged. -/
theorem c5_double_alert_preserves_topic_cache
    (s : BotState) (channel nick X msgA msgB : String) (echoes1 echoes2 : List String) :
    (∀ st : BotState, ∀ ch t : String, st.current_topic = some t →
        updateSavedTopic st ch t = (st, []))
    ∧ (echoes2.foldl (fun st ch => (updateSavedTopic st ch X).1)
          ((dispatchCommand
              (echoes1.foldl (fun st ch => (updateSavedTopic st ch X).1)
                ((dispatchCommand s channel nick "alert" X msgA).1))
              channel nick "alert" X msgB).1)).topics = s.topics := by
  constructor
  · intro st ch t h
    simp [updateSavedTopic, h]
  · rw [dispatch_alert_state, applyEchoesT _ _ _ rfl, dispatch_alert_state,
      applyEchoesT _ _ _ rfl]

/-- C5 witness: the double-alert theorem applied to a concrete state, with
the ignored-echo conjunct applied to a state with an active alert. -/
theorem c5_witness :
    ({ baseState with current_topic := some "fire" } : BotState).current_topic = some "fire"
    ∧ updateSavedTopic { baseState with current_topic := some "fire" } "#ops" "fire"
        = ({ baseState with current_topic := some "fire" }, [])
    ∧ (["#ops"].foldl (fun st ch => (updateSavedTopic st ch "fire").1)
          ((dispatchCommand
              (["#ops"].foldl (fun st ch => (updateSavedTopic st ch "fire").1)
                ((dispatchCommand baseState "#ops" "alice" "alert" "fire" "m").1))
              "#ops" "alice" "alert" "fire" "m").1)).topics = baseState.topics :=
  ⟨rfl,
   (c5_double_alert_preserves_topic_cache baseState "#ops" "alice" "fire" "m" "m"
       ["#ops"] ["#ops"]).1 { baseState with current_topic := some "fire" } "#ops" "fire" rfl,
   (c5_double_alert_preserves_topic_cache baseState "#ops" "alice" "fire" "m" "m"
       ["#ops"] ["#ops"]).2⟩

/-! C2: publisher failure behaviour. -/

/-- The calls fanout emits when the publishers at indices i up to i+n-1
are invoked. -/
def callsUpTo (op : PubOp) (text : String) : Nat → Nat → List Action
  | _, 0 => []
  | i, n + 1 => Action.pubCall i op text :: callsUpTo op text (i + 1) n

/-- When every publisher before p succeeds and p raises, the fan-out loop
invokes exactly the publishers up to and including p and the exception
escapes; the publishers after p are never invoked. -/
theorem fanout_fail_trace (pre post : List Publisher) (p : Publisher) (op : PubOp)
    (text : String) (i : Nat)
    (hpre : ∀ q ∈ pre, q.failsOn op text = false) (hp : p.failsOn op text = true) :
    fanout (pre ++ p :: post) op text i = (callsUpTo op text i (pre.length + 1), true) := by
  induction pre generalizing i with
  | nil => simp [fanout, hp, callsUpTo]
  | cons q rest ih =>
    have hq : q.failsOn op text = false := hpre q (by simp)
    have ih2 := ih (i + 1) (fun r hr => hpre r (by simp [hr]))
    simp [fanout, hq, ih2, callsUpTo]

theorem mem_callsUpTo (j : Nat) (op' op : PubOp) (text' text : String) (i n : Nat) :
    Action.pubCall j op' text' ∈ callsUpTo op text i n
      ↔ op' = op ∧ text' = text ∧ i ≤ j ∧ j < i + n := by
  induction n generalizing i with
  | zero => simp [callsUpTo]
  | succ n ih =>
    simp only [callsUpTo, List.mem_cons, ih, Action.pubCall.injEq]
    constructor
    · rintro (⟨rfl, rfl, rfl⟩ | ⟨rfl, rfl, h1, h2⟩)
      · exact ⟨rfl, rfl, le_refl _, by omega⟩
      · exact ⟨rfl, rfl, by omega, by omega⟩
    · rintro ⟨rfl, rfl, h1, h2⟩
      by_cases hj : j = i
      · exact Or.inl ⟨hj, rfl, rfl⟩
      · exact Or.inr ⟨rfl, rfl, by omega, by omega⟩

theorem callsUpTo_all (op : PubOp) (text : String) (i n : Nat) :
    ∀ a ∈ callsUpTo op text i n, isPubCall a = true := by
  induction n generalizing i with
  | zero => intro a ha; simp [callsUpTo] at ha
  | succ n ih =>
    intro a ha
    simp only [callsUpTo, List.mem_cons] at ha
    rcases ha with rfl | ha
    · rfl
    · exact ih (i + 1) a ha

/-- Broadcast actions are only topic sets and channel notices. -/
theorem broadcast_no_pub (s : BotState) (pfx msg : String) (st rt : Bool) :
    ∀ a ∈ (broadcast s pfx msg st rt).2, isPubCall a = false ∧ isPrivmsg a = false := by
  intro a ha
  simp only [broadcast, List.mem_flatten, List.mem_map] at ha
  obtain ⟨l, ⟨c, hc, rfl⟩, hal⟩ := ha
  simp only [List.mem_append] at hal
  rcases hal with (h | h) | h
  · split at h
    · simp only [List.mem_singleton] at h
      subst h
      exact ⟨rfl, rfl⟩
    · simp at h
  · split at h
    · simp only [List.mem_singleton] at h
      subst h
      exact ⟨rfl, rfl⟩
    · simp at h
  · split at h
    · simp only [List.mem_singleton] at h
      subst h
      exact ⟨rfl, rfl⟩
    · simp at h

theorem string_append_ne (nick a b : String) (h : a.toList ≠ b.toList) :
    nick ++ a ≠ nick ++ b := by
  intro he
  apply h
  have hd := congrArg String.toList he
  simp only [String.toList, String.data_append] at hd
  exact List.append_cancel_left hd

/-- The command verbs handled by handle_status_command and the publisher
operation each one fans out. -/
def opOfCommand : String → Option PubOp
  | "alert" => some PubOp.alertOp
  | "notice" => some PubOp.noticeOp
  | "log" => some PubOp.logOp
  | "ok" => some PubOp.okOp
  | _ => none

theorem opOfCommand_cases (cmd : String) (op : PubOp) (h : opOfCommand cmd = some op) :
    (cmd = "alert" ∧ op = PubOp.alertOp) ∨ (cmd = "notice" ∧ op = PubOp.noticeOp)
    ∨ (cmd = "log" ∧ op = PubOp.logOp) ∨ (cmd = "ok" ∧ op = PubOp.okOp) := by
  unfold opOfCommand at h
  split at h
  · exact Or.inl ⟨rfl, (Option.some.injEq _ _ ▸ h).symm⟩
  · exact Or.inr (Or.inl ⟨rfl, (Option.some.injEq _ _ ▸ h).symm⟩)
  · exact Or.inr (Or.inr (Or.inl ⟨rfl, (Option.some.injEq _ _ ▸ h).symm⟩))
  · exact Or.inr (Or.inr (Or.inr ⟨rfl, (Option.some.injEq _ _ ▸ h).symm⟩))
  · simp at h

/-- Membership facts about a trace of the form A followed by the calls of
an aborted fan-out, when no action of A is a publisher call or a finished
acknowledgement. -/
theorem c2_core (channel nick text : String) (op : PubOp) (npre : Nat) (A : List Action)
    (hA : ∀ a ∈ A, isPubCall a = false
        ∧ ∀ m2 : String, a ≠ Action.privmsg channel (nick ++ (": finished " ++ m2))) :
    (∀ j, j ≤ npre → Action.pubCall j op text ∈ A ++ callsUpTo op text 0 (npre + 1))
    ∧ (∀ j, npre < j → Action.pubCall j op text ∉ A ++ callsUpTo op text 0 (npre + 1))
    ∧ ∀ m2 : String,
        Action.privmsg channel (nick ++ (": finished " ++ m2))
          ∉ A ++ callsUpTo op text 0 (npre + 1) := by
  refine ⟨?_, ?_, ?_⟩
  · intro j hj
    apply List.mem_append_right
    rw [mem_callsUpTo]
    exact ⟨rfl, rfl, Nat.zero_le _, by omega⟩
  · intro j hj hmem
    rcases List.mem_append.mp hmem with h | h
    · exact absurd (hA _ h).1 (by simp [isPubCall])
    · rw [mem_callsUpTo] at h
      omega
  · intro m2 hmem
    rcases List.mem_append.mp hmem with h | h
    · exact absurd rfl ((hA _ h).2 m2)
    · have := callsUpTo_all op text 0 (npre + 1) _ h
      simp [isPubCall] at this

theorem hA_sending (s : BotState) (pfx tx : String) (st rt : Bool) (channel nick li sd : String)
    (hsd : ∀ m2 : String, sd.toList ≠ (": finished " ++ m2).toList) :
    ∀ a ∈ (Action.logInfo li :: Action.privmsg channel (nick ++ sd)
        :: (broadcast s pfx tx st rt).2),
      isPubCall a = false
      ∧ ∀ m2 : String, a ≠ Action.privmsg channel (nick ++ (": finished " ++ m2)) := by
  intro a ha
  rcases List.mem_cons.mp ha with rfl | ha
  · exact ⟨rfl, fun m2 => by simp⟩
  rcases List.mem_cons.mp ha with rfl | ha
  · refine ⟨rfl, fun m2 he => ?_⟩
    simp only [Action.privmsg.injEq] at he
    exact string_append_ne nick sd _ (hsd m2) he.2
  · obtain ⟨hpc, hpm⟩ := broadcast_no_pub s pfx tx st rt a ha
    refine ⟨hpc, fun m2 he => ?_⟩
    rw [he] at hpm
    simp [isPrivmsg] at hpm

theorem hA_loginfo (channel nick li : String) :
    ∀ a ∈ [Action.logInfo li],
      isPubCall a = false
      ∧ ∀ m2 : String, a ≠ Action.privmsg channel (nick ++ (": finished " ++ m2)) := by
  intro a ha
  simp only [List.mem_singleton] at ha
  subst ha
  exact ⟨rfl, fun m2 => by simp⟩

/-- The alert branch when a publisher raises: the trace ends with the
aborted fan-out and no finished acknowledgement is sent. -/
theorem dispatch_alert_fail (s : BotState) (channel nick text msg : String)
    (pre post : List Publisher) (p : Publisher)
    (hpubs : s.publishers = pre ++ p :: post)
    (hpre : ∀ q ∈ pre, q.failsOn PubOp.alertOp text = false)
    (hp : p.failsOn PubOp.alertOp text = true) :
    dispatchCommand s channel nick "alert" text msg
      = ((broadcast s "NOTICE: " text true false).1,
         (Action.logInfo ("Processing alert from " ++ nick ++ ": " ++ text)
           :: Action.privmsg channel (nick ++ ": sending alert")
           :: (broadcast s "NOTICE: " text true false).2)
           ++ callsUpTo PubOp.alertOp text 0 (pre.length + 1),
         true) := by
  have hft := fanout_fail_trace pre post p PubOp.alertOp text 0 hpre hp
  simp only [dispatchCommand, if_true]
  rw [hpubs, hft]
  rfl

/-- The notice branch when a publisher raises. -/
theorem dispatch_notice_fail (s : BotState) (channel nick text msg : String)
    (pre post : List Publisher) (p : Publisher)
    (hpubs : s.publishers = pre ++ p :: post)
    (hpre : ∀ q ∈ pre, q.failsOn PubOp.noticeOp text = false)
    (hp : p.failsOn PubOp.noticeOp text = true) :
    dispatchCommand s channel nick "notice" text msg
      = (s,
         (Action.logInfo ("Processing notice from " ++ nick ++ ": " ++ text)
           :: Action.privmsg channel (nick ++ ": sending notice")
           :: (broadcast s "NOTICE: " text false false).2)
           ++ callsUpTo PubOp.noticeOp text 0 (pre.length + 1),
         true) := by
  have hft := fanout_fail_trace pre post p PubOp.noticeOp text 0 hpre hp
  simp only [dispatchCommand]
  rw [if_neg (by decide : ("notice" : String) ≠ "alert")]
  simp only [if_true]
  rw [hpubs, hft]
  rfl

/-- The log branch when a publisher raises. -/
theorem dispatch_log_fail (s : BotState) (channel nick text msg : String)
    (pre post : List Publisher) (p : Publisher)
    (hpubs : s.publishers = pre ++ p :: post)
    (hpre : ∀ q ∈ pre, q.failsOn PubOp.logOp text = false)
    (hp : p.failsOn PubOp.logOp text = true) :
    dispatchCommand s channel nick "log" text msg
      = (s,
         [Action.logInfo ("Processing log from " ++ nick ++ ": " ++ text)]
           ++ callsUpTo PubOp.logOp text 0 (pre.length + 1),
         true) := by
  have hft := fanout_fail_trace pre post p PubOp.logOp text 0 hpre hp
  simp only [dispatchCommand]
  rw [if_neg (by decide : ("log" : String) ≠ "alert"),
    if_neg (by decide : ("log" : String) ≠ "notice")]
  simp only [if_true]
  rw [hpubs, hft]
  rfl

/-- The ok branch when a publisher raises. -/
theorem dispatch_okcmd_fail (s : BotState) (channel nick text msg : String)
    (pre post : List Publisher) (p : Publisher)
    (hpubs : s.publishers = pre ++ p :: post)
    (hpre : ∀ q ∈ pre, q.failsOn PubOp.okOp text = false)
    (hp : p.failsOn PubOp.okOp text = true) :
    dispatchCommand s channel nick "ok" text msg
      = (s,
         (Action.logInfo ("Processing ok from " ++ nick ++ ": " ++ text)
           :: Action.privmsg channel (nick ++ ": sending ok")
           :: (broadcast s "NOTICE: " text false true).2)
           ++ callsUpTo PubOp.okOp text 0 (pre.length + 1),
         true) := by
  have hft := fanout_fail_trace pre post p PubOp.okOp text 0 hpre hp
  simp only [dispatchCommand]
  rw [if_neg (by decide : ("ok" : String) ≠ "alert"),
    if_neg (by decide : ("ok" : String) ≠ "notice"),
    if_neg (by decide : ("ok" : String) ≠ "log")]
  simp only [if_true]
  rw [hpubs, hft]
  rfl

/-- A publisher whose notice operation raises. -/
def pubFailNotice : Publisher :=
  ⟨fun op _ => match op with | PubOp.noticeOp => true | _ => false⟩

/-- A publisher that never raises. -/
def pubNeverFails : Publisher := ⟨fun _ _ => false⟩

/-- The base state with two publishers, the first failing on notice. -/
def c2State : BotState :=
  { baseState with publishers := [pubFailNotice, pubNeverFails] }

/-- C2 counterexample: with two registered publishers whose first raises
on notice, the notice command invokes publisher 0 but not publisher 1,
sends no completion acknowledgement, and the exception is logged at the
dispatch boundary: the failure is not isolated per publisher. -/
theorem c2_counterexample :
    (onPubmsg c2State "alice!a@h" "#ops" '+' "#status notice hi").2.contains
        (Action.pubCall 0 PubOp.noticeOp "hi") = true
    ∧ (onPubmsg c2State "alice!a@h" "#ops" '+' "#status notice hi").2.contains
        (Action.pubCall 1 PubOp.noticeOp "hi") = false
    ∧ (onPubmsg c2State "alice!a@h" "#ops" '+' "#status notice hi").2.contains
        (Action.privmsg "#ops" "alice: finished sending notice") = false
    ∧ (onPubmsg c2State "alice!a@h" "#ops" '+' "#status notice hi").2.contains
        (Action.logExc "Exception handling command #status notice hi") = true := by
  refine ⟨by decide, by decide, by decide, by decide⟩

/-- C2 amended: for every privileged command, when the publishers before
position i succeed and the publisher at position i raises, exactly the
publishers up to and including i are invoked, no publisher after i is
invoked, the exception escapes to the dispatch boundary, and no finished
acknowledgement of any kind is sent to the channel. -/
theorem c2_publisher_failure_aborts_fanout
    (s : BotState) (channel nick text msg command : String) (op : PubOp)
    (pre post : List Publisher) (p : Publisher)
    (hcmd : opOfCommand command = some op)
    (hpubs : s.publishers = pre ++ p :: post)
    (hpre : ∀ q ∈ pre, q.failsOn op text = false)
    (hp : p.failsOn op text = true) :
    (dispatchCommand s channel nick command text msg).2.2 = true
    ∧ (∀ j, j ≤ pre.length →
        Action.pubCall j op text ∈ (dispatchCommand s channel nick command text msg).2.1)
    ∧ (∀ j, pre.length < j →
        Action.pubCall j op text ∉ (dispatchCommand s channel nick command text msg).2.1)
    ∧ ∀ m2 : String, Action.privmsg channel (nick ++ (": finished " ++ m2))
        ∉ (dispatchCommand s channel nick command text msg).2.1 := by
  rcases opOfCommand_cases command op hcmd with ⟨rfl, rfl⟩ | ⟨rfl, rfl⟩ | ⟨rfl, rfl⟩ | ⟨rfl, rfl⟩
  · rw [dispatch_alert_fail s channel nick text msg pre post p hpubs hpre hp]
    exact ⟨rfl, c2_core channel nick text PubOp.alertOp pre.length _
      (hA_sending s "NOTICE: " text true false channel nick _ ": sending alert"
        (fun m2 => by simp [String.toList, String.data_append]))⟩
  · rw [dispatch_notice_fail s channel nick text msg pre post p hpubs hpre hp]
    exact ⟨rfl, c2_core channel nick text PubOp.noticeOp pre.length _
      (hA_sending s "NOTICE: " text false false channel nick _ ": sending notice"
        (fun m2 => by simp [String.toList, String.data_append]))⟩
  · rw [dispatch_log_fail s channel nick text msg pre post p hpubs hpre hp]
    exact ⟨rfl, c2_core channel nick text PubOp.logOp pre.length _
      (hA_loginfo channel nick _)⟩
  · rw [dispatch_okcmd_fail s channel nick text msg pre post p hpubs hpre hp]
    exact ⟨rfl, c2_core channel nick text PubOp.okOp pre.length _
      (hA_sending s "NOTICE: " text false true channel nick _ ": sending ok"
        (fun m2 => by simp [String.toList, String.data_append]))⟩

/-- C2 witness: the amended theorem applied to the two-publisher state
with the first publisher failing on notice. -/
theorem c2_witness :
    (opOfCommand "notice" = some PubOp.noticeOp
      ∧ c2State.publishers = [] ++ pubFailNotice :: [pubNeverFails]
      ∧ (∀ q ∈ ([] : List Publisher), q.failsOn PubOp.noticeOp "hi" = false)
      ∧ pubFailNotice.failsOn PubOp.noticeOp "hi" = true)
    ∧ ((dispatchCommand c2State "#ops" "alice" "notice" "hi" "m").2.2 = true
       ∧ (∀ j, j ≤ ([] : List Publisher).length →
           Action.pubCall j PubOp.noticeOp "hi"
             ∈ (dispatchCommand c2State "#ops" "alice" "notice" "hi" "m").2.1)
       ∧ (∀ j, ([] : List Publisher).length < j →
           Action.pubCall j PubOp.noticeOp "hi"
             ∉ (dispatchCommand c2State "#ops" "alice" "notice" "hi" "m").2.1)
       ∧ ∀ m2 : String, Action.privmsg "#ops" ("alice" ++ (": finished " ++ m2))
           ∉ (dispatchCommand c2State "#ops" "alice" "notice" "hi" "m").2.1) :=
  ⟨⟨rfl, rfl, fun q hq => absurd hq (List.not_mem_nil q), rfl⟩,
   c2_publisher_failure_aborts_fanout c2State "#ops" "alice" "hi" "m" "notice" PubOp.noticeOp
     [] [pubNeverFails] pubFailNotice rfl rfl (fun q hq => absurd hq (List.not_mem_nil q)) rfl⟩

/-! C9: the microblog splitter. -/

theorem takeChunks_bound (width : Nat) (curLen : Nat) (cs : List (List Char)) :
    curLen + sumLen (takeChunks width curLen cs).1 ≤ width
    ∨ (takeChunks width curLen cs).1 = [] := by
  induction cs generalizing curLen with
  | nil => exact Or.inr rfl
  | cons c cs ih =>
    simp only [takeChunks]
    split
    · next hle =>
      rcases ih (curLen + c.length) with h | h
      · left
        simp only [sumLen, List.map_cons, List.sum_cons] at h ⊢
        omega
      · left
        rw [h]
        simp only [sumLen, List.map_cons, List.map_nil, List.sum_cons, List.sum_nil]
        omega
    · exact Or.inr rfl

theorem sumLen_dropLast (l : List (List Char)) : sumLen l.dropLast ≤ sumLen l := by
  induction l with
  | nil => simp [sumLen]
  | cons a l ih =>
    cases l with
    | nil => simp [sumLen]
    | cons b l2 =>
      simp only [List.dropLast_cons₂, sumLen, List.map_cons, List.sum_cons] at ih ⊢
      omega

/-- A filled line never exceeds the width: the greedy loop keeps within
the budget and a broken long word only receives the remaining space. -/
theorem fillLine_bound (width : Nat) (hw : 1 ≤ width) (chunks1 : List (List Char)) :
    sumLen (fillLine width chunks1).1 ≤ width := by
  have ht : sumLen (takeChunks width 0 chunks1).1 ≤ width := by
    rcases takeChunks_bound width 0 chunks1 with h | h
    · omega
    · rw [h]
      simp [sumLen]
  have hnw : ¬ width < 1 := by omega
  simp only [fillLine, hnw, if_false]
  split
  · exact ht
  · split
    · next hlong =>
      simp only [sumLen, List.map_append, List.map_cons, List.map_nil,
        List.sum_append, List.sum_cons, List.sum_nil, List.length_take]
      simp only [sumLen] at ht
      omega
    · exact ht

theorem dropTrailingWs_bound (width : Nat) (p : List (List Char)) (hp : sumLen p ≤ width) :
    sumLen (dropTrailingWs p) ≤ width := by
  unfold dropTrailingWs
  split
  · split
    · exact le_trans (sumLen_dropLast p) hp
    · exact hp
  · exact hp

theorem buildLine_bound (width : Nat) (hw : 1 ≤ width) (b : Bool) (chunks : List (List Char)) :
    ((buildLine width b chunks).1.flatten).length ≤ width := by
  have hflat : ∀ L : List (List Char), (L.flatten).length = sumLen L := by
    intro L
    simp [List.length_flatten, sumLen]
  simp only [buildLine]
  rw [hflat]
  exact dropTrailingWs_bound width _ (fillLine_bound width hw _)

theorem wrapLoop_bound (width : Nat) (hw : 1 ≤ width) (fuel : Nat) :
    ∀ lines chunks, (∀ l ∈ lines, l.length ≤ width) →
      ∀ l ∈ wrapLoop width fuel lines chunks, l.length ≤ width := by
  induction fuel with
  | zero => intro lines chunks hl l hm; exact hl l hm
  | succ fuel ih =>
    intro lines chunks hl
    cases chunks with
    | nil => exact hl
    | cons c cs =>
      simp only [wrapLoop]
      apply ih
      intro l hm
      split at hm
      · rcases List.mem_append.mp hm with h | h
        · exact hl l h
        · simp only [List.mem_singleton] at h
          subst h
          exact buildLine_bound width hw _ _
      · exact hl l hm

/-- Every chunk produced by the 120-character wrap is at most 120
characters long. -/
theorem textwrapWrap_bound (msg : String) : ∀ t ∈ textwrapWrap 120 msg, t.length ≤ 120 := by
  intro t ht
  simp only [textwrapWrap, List.mem_map] at ht
  obtain ⟨l, hl, rfl⟩ := ht
  exact wrapLoop_bound 120 (by omega) _ [] _ (by intro x hx; simp at hx) l hl

/-- A message that wraps to a single chunk is posted as is, unprefixed. -/
theorem tweetUpdate_single (msg : String) (t : String) (h : textwrapWrap 120 msg = [t]) :
    tweetUpdate msg = [t] := by
  simp only [tweetUpdate, h]

/-- A message that does not wrap to exactly one chunk is posted as the
enumerated chunks, each prefixed by its index and a slash, from 0. -/
theorem tweetUpdate_multi (msg : String) (h : (textwrapWrap 120 msg).length ≠ 1) :
    tweetUpdate msg
      = (textwrapWrap 120 msg).enum.map (fun p => toString p.1 ++ "/" ++ p.2) := by
  simp only [tweetUpdate]
  rcases hw : textwrapWrap 120 msg with _ | ⟨a, _ | ⟨b, rest⟩⟩
  · rfl
  · rw [hw] at h
    simp at h
  · rfl

/-- A 250-character message of four 61-character words followed by a
2-character word. -/
def c9msg : String :=
  String.mk (List.replicate 61 'a') ++ " " ++ String.mk (List.replicate 61 'b') ++ " "
    ++ String.mk (List.replicate 61 'c') ++ " " ++ String.mk (List.replicate 61 'd') ++ " ee"

set_option maxRecDepth 40000 in
/-- C9 counterexample: a 250-character message does not always yield
exactly 3 posts: with word boundaries at 61-character words, greedy
wrapping at 120 produces 4 chunks, hence 4 numbered posts. -/
theorem c9_counterexample :
    c9msg.length = 250 ∧ (tweetUpdate c9msg).length = 4 :=
  ⟨by decide, by decide⟩

set_option maxRecDepth 40000 in
/-- C9 amended: every chunk of a microblog publication is at most 120
characters; a message wrapping to one chunk is posted unprefixed; a
message wrapping to several chunks is posted as index-slash-chunk with
indices from 0; and a 250-character message without whitespace yields
exactly 3 posts (the count for messages with word boundaries depends on
where the words break). -/
theorem c9_tweet_wrap_properties (msg : String) :
    (∀ t ∈ textwrapWrap 120 msg, t.length ≤ 120)
    ∧ (∀ t, textwrapWrap 120 msg = [t] → tweetUpdate msg = [t])
    ∧ ((textwrapWrap 120 msg).length ≠ 1 →
        tweetUpdate msg = (textwrapWrap 120 msg).enum.map
          (fun p => toString p.1 ++ "/" ++ p.2))
    ∧ (tweetUpdate (String.mk (List.replicate 250 'x'))).length = 3 :=
  ⟨textwrapWrap_bound msg, fun t h => tweetUpdate_single msg t h,
   tweetUpdate_multi msg, by decide⟩

/-- C9 witness: the amended theorem applied to a short message. -/
theorem c9_witness :
    textwrapWrap 120 "hello" = ["hello"]
    ∧ "hello".length ≤ 120
    ∧ tweetUpdate "hello" = ["hello"] :=
  ⟨by decide,
   (c9_tweet_wrap_properties "hello").1 "hello" (by decide),
   (c9_tweet_wrap_properties "hello").2.1 "hello" (by decide)⟩

/-- C6 witness: the amended theorem applied to the bare status trigger. -/
theorem c6_witness :
    (baseState.identify_msg_cap = true
      ∧ baseState.nicks.contains ((pySplitChar '!' "alice!a@h").headD "") = true
      ∧ pyStartsWith "#status" "#success" = false
      ∧ pyStartsWith "#status" "#thanks" = false
      ∧ pyStartsWith "#status" "#status" = true
      ∧ (pySplit "#status").length ≤ 1)
    ∧ onPubmsg baseState "alice!a@h" "#ops" '+' "#status"
        = (baseState, [Action.logExc ("Exception handling command " ++ "#status")]) :=
  ⟨⟨by decide, by decide, by decide, by decide, by decide, by decide⟩,
   c6_short_command_logged_exception baseState "alice!a@h" "#ops" "#status"
     (by decide) (by decide) (by decide) (by decide) (by decide) (by decide)⟩

end Statusbot
